import Mathlib

/-!
# Scoreboard backend (`server.js`)

A shallow embedding of the four HTTP handlers of `server.js` together with the
`ensureData` / `load` / `save` persistence wrapper, followed by theorems about
winner assignment, renaming and resetting.

Modelling conventions.

* The contents of `data.json` are a `DataFile`: the file may be missing, may
  fail to parse, or holds a `Document`.  Documents are well typed: a score is an
  integer or JSON `null` (which is what `JSON.stringify` writes for `NaN`), the
  points of a game are an integer, a winner is `null` or a string.
* Request fields are `JSValue`s.  A field that is absent from the body is
  `JSValue.undefined`; an array or object is represented by the string its
  `ToPrimitive` conversion yields.
* Numbers are idealised: an integer-valued double is `JSNumber.int`, every
  non-integral double and both infinities are `JSNumber.other`.  Decimal text is
  read at its exact value, binary64 rounding is not modelled.
* I/O failures of the file system are not modelled.
-/

namespace Scoreboard

/-! ## Data model -/

/-- The `teamNames` object: display names under the fixed keys `teamA`, `teamB`. -/
structure TeamNames where
  teamA : String
  teamB : String
deriving DecidableEq, Repr

/-- One entry of `games`. -/
structure Game where
  title : String
  points : Int
  winner : Option String
deriving DecidableEq, Repr

/-- A score as persisted: an integer, or `none` for JSON `null`. -/
abbrev Score := Option Int

/-- The persisted scoreboard document. `teams` is an object, kept as its list of
own properties in insertion order. -/
structure Document where
  teamNames : TeamNames
  teams : List (String × Score)
  games : List Game
deriving DecidableEq, Repr

/-- What is on disk at `DATA_FILE`. -/
inductive DataFile where
  | missing
  | unparsable
  | json (d : Document)
deriving DecidableEq, Repr

/-- A double, up to what the handlers can observe. -/
inductive JSNumber where
  | nan
  | negZero
  | int (i : Int)
  | other
deriving DecidableEq, Repr

/-- A value of a field of `req.body`. -/
inductive JSValue where
  | undefined
  | null
  | bool (b : Bool)
  | number (n : JSNumber)
  | string (s : String)
  | object (prim : String)
deriving DecidableEq, Repr

/-- What a handler sends back: the document itself (`res.json(data)`), or a
status code with a `message`. -/
inductive Response where
  | document (d : Document)
  | message (status : Nat) (msg : String)
deriving DecidableEq, Repr

/-! ## JavaScript primitives used by the handlers -/

/-- The code points of `WhiteSpace` and `LineTerminator`, which are what
`String.prototype.trim` and `StringToNumber` strip. -/
def isStrWhiteSpaceChar (c : Char) : Bool :=
  let n := c.toNat
  n == 0x09 || n == 0x0A || n == 0x0B || n == 0x0C || n == 0x0D || n == 0x20 ||
  n == 0xA0 || n == 0x1680 || (0x2000 ≤ n && n ≤ 0x200A) || n == 0x2028 ||
  n == 0x2029 || n == 0x202F || n == 0x205F || n == 0x3000 || n == 0xFEFF

/-- Strip white space from both ends of a list of characters. -/
def trimChars (cs : List Char) : List Char :=
  ((cs.dropWhile isStrWhiteSpaceChar).reverse.dropWhile isStrWhiteSpaceChar).reverse

/-- The method `String.prototype.trim`. -/
def trim (s : String) : String := String.mk (trimChars s.data)

/-- Value of a digit character in the given radix, if it is one. -/
def digitValue (radix : Nat) (c : Char) : Option Nat :=
  let n := c.toNat
  let v : Option Nat :=
    if 48 ≤ n && n ≤ 57 then some (n - 48)
    else if 97 ≤ n && n ≤ 102 then some (n - 87)
    else if 65 ≤ n && n ≤ 70 then some (n - 55)
    else none
  match v with
  | some d => if d < radix then some d else none
  | none => none

/-- Read a non-empty run of digits in the given radix; `none` when the list is
empty or holds another character. -/
def readDigits (radix : Nat) (cs : List Char) : Option Nat :=
  match cs with
  | [] => none
  | _ => cs.foldl (fun acc c =>
      match acc, digitValue radix c with
      | some a, some d => some (a * radix + d)
      | _, _ => none) (some 0)

/-- Read a possibly empty run of decimal digits. -/
def readDigitsOpt (cs : List Char) : Option Nat :=
  match cs with
  | [] => some 0
  | _ => readDigits 10 cs

/-- The exponent part after `e` / `E`: an optional sign and decimal digits. -/
def readExponent (cs : List Char) : Option Int :=
  match cs with
  | '+' :: ds => (readDigits 10 ds).map Int.ofNat
  | '-' :: ds => (readDigits 10 ds).map (fun n => - Int.ofNat n)
  | ds => (readDigits 10 ds).map Int.ofNat

/-- The number with decimal mantissa `m` and decimal exponent `e`, carrying the
sign `neg`. -/
def classify (neg : Bool) (m : Nat) (e : Int) : JSNumber :=
  if m = 0 then (if neg then .negZero else .int 0)
  else
    let signed (v : Nat) : JSNumber := .int (if neg then - Int.ofNat v else Int.ofNat v)
    if 0 ≤ e then signed (m * 10 ^ e.toNat)
    else
      let d := 10 ^ (- e).toNat
      if m % d = 0 then signed (m / d) else .other

/-- An unsigned `StrDecimalLiteral` other than `Infinity`:
`digits [. [digits]] [exponent]` or `. digits [exponent]`. -/
def readDecimal (neg : Bool) (cs : List Char) : JSNumber :=
  let mant := cs.takeWhile (fun c => c != 'e' && c != 'E')
  let rest := cs.dropWhile (fun c => c != 'e' && c != 'E')
  let ip := mant.takeWhile (fun c => c != '.')
  let fp := (mant.dropWhile (fun c => c != '.')).drop 1
  let expo : Option Int :=
    match rest with
    | [] => some 0
    | _ :: es => readExponent es
  if ip.isEmpty && fp.isEmpty then .nan
  else
    match readDigitsOpt ip, readDigitsOpt fp, expo with
    | some i, some f, some e => classify neg (i * 10 ^ fp.length + f) (e - fp.length)
    | _, _, _ => .nan

/-- The abstract operation `StringToNumber`. -/
def stringToNumber (s : String) : JSNumber :=
  let infinity := "Infinity".data
  match trimChars s.data with
  | [] => .int 0
  | '0' :: 'x' :: ds | '0' :: 'X' :: ds =>
      match readDigits 16 ds with
      | some n => .int n
      | none => .nan
  | '0' :: 'o' :: ds | '0' :: 'O' :: ds =>
      match readDigits 8 ds with
      | some n => .int n
      | none => .nan
  | '0' :: 'b' :: ds | '0' :: 'B' :: ds =>
      match readDigits 2 ds with
      | some n => .int n
      | none => .nan
  | '+' :: ds => if ds = infinity then .other else readDecimal false ds
  | '-' :: ds => if ds = infinity then .other else readDecimal true ds
  | ds => if ds = infinity then .other else readDecimal false ds

/-- The conversion `Number(v)`. -/
def toNumber : JSValue → JSNumber
  | .undefined => .nan
  | .null => .int 0
  | .bool true => .int 1
  | .bool false => .int 0
  | .number n => n
  | .string s => stringToNumber s
  | .object prim => stringToNumber prim

/-- The test `Number.isNaN`. -/
def isNaN : JSNumber → Bool
  | .nan => true
  | _ => false

/-- Truthiness (`ToBoolean`) of a request field. -/
def truthy : JSValue → Bool
  | .undefined => false
  | .null => false
  | .bool b => b
  | .number .nan => false
  | .number .negZero => false
  | .number (.int i) => i != 0
  | .number .other => true
  | .string s => s != ""
  | .object _ => true

/-- Truthiness of a `game.winner`: `null` and the empty string are falsy. -/
def winnerTruthy : Option String → Bool
  | none => false
  | some s => s != ""

/-- The array index a number used as a property key of `data.games` denotes:
the key is `ToString(index)`, which is an array index only for a non-negative
integer (`-0` prints as `"0"`). -/
def arrayIndex : JSNumber → Option Nat
  | .int i => if 0 ≤ i then some i.toNat else none
  | .negZero => some 0
  | .nan => none
  | .other => none

/-- The read `data.games[index]`, with the position found; `none` is
`undefined`. -/
def getGame (games : List Game) (index : JSNumber) : Option (Nat × Game) :=
  match arrayIndex index with
  | some i =>
      match games[i]? with
      | some g => some (i, g)
      | none => none
  | none => none

/-- The write `obj[k] = v` on the `teams` object: an existing key keeps its
place, a new key is added last. -/
def setProp : List (String × Score) → String → Score → List (String × Score)
  | [], k, v => [(k, v)]
  | (k0, v0) :: rest, k, v =>
      if k0 = k then (k, v) :: rest else (k0, v0) :: setProp rest k v

/-- The read `obj[k]` converted to a number: `null` counts as `0`, a missing key
(`undefined`) as `NaN`, here `none`. -/
def getNumber (teams : List (String × Score)) (k : String) : Option Int :=
  match teams.lookup k with
  | some (some v) => some v
  | some none => some 0
  | none => none

/-- The update `teams[k] += delta` (and `-=` with a negated `delta`). A `NaN`
result is kept as `none`, the `null` that `save` writes for it. -/
def addAssign (teams : List (String × Score)) (k : String) (delta : Int) :
    List (String × Score) :=
  setProp teams k ((getNumber teams k).map (fun v => v + delta))

/-- The test `['Team A', 'Team B'].includes(winner)`; on success the winner as a
string. -/
def includesWinner : JSValue → Option String
  | .string s => if s = "Team A" ∨ s = "Team B" then some s else none
  | _ => none

/-! ## Persistence -/

/-- The document `ensureData` writes when the file does not exist. -/
def initialData : Document where
  teamNames := { teamA := "Team A", teamB := "Team B" }
  teams := [("Team A", some 0), ("Team B", some 0)]
  games := [
    { title := "Vadam Vali", points := 10, winner := none },
    { title := "Lemon and Spoon", points := 10, winner := none },
    { title := "Kasara Kali", points := 10, winner := none },
    { title := "Thetta Pavakka", points := 10, winner := none },
    { title := "Sujiyile Nule Korkkal", points := 10, winner := none },
    { title := "Vellam Kudi", points := 10, winner := none },
    { title := "Theta Malsaram Mulaku", points := 10, winner := none },
    { title := "Ballon Chavitti Pottikkal", points := 10, winner := none },
    { title := "Porotta Thetta Malsaram", points := 10, winner := none },
    { title := "Kuppile Vellom Nirakkal", points := 10, winner := none },
    { title := "Imavettal", points := 10, winner := none },
    { title := "Ballon Udhipottical", points := 10, winner := none },
    { title := "Uriyadi", points := 10, winner := none },
    { title := "Mittai Perukkal", points := 10, winner := none },
    { title := "Sundarikku Pottuthodal", points := 10, winner := none },
    { title := "Thalayana Adi", points := 10, winner := none } ]

/-- The document `load` returns when the file cannot be parsed. -/
def fallbackData : Document where
  teamNames := { teamA := "Team A", teamB := "Team B" }
  teams := [("Team A", some 0), ("Team B", some 0)]
  games := []

/-- The function `ensureData`: create the file when it does not exist. -/
def ensureData : DataFile → DataFile
  | .missing => .json initialData
  | f => f

/-- The function `load`: the parsed document and the file as `ensureData` left
it. -/
def load (file : DataFile) : Document × DataFile :=
  match ensureData file with
  | .json d => (d, .json d)
  | f => (fallbackData, f)

/-- The function `save`: overwrite the file with the document. -/
def save (data : Document) : DataFile := .json data

/-! ## Handlers -/

/-- The handler `GET /api/scoreboard`. -/
def getScoreboard (file : DataFile) : Response × DataFile :=
  let (data, file1) := load file
  (.document data, file1)

/-- The handler `POST /api/update-winner`. -/
def updateWinner (file : DataFile) (gameIndex winner : JSValue) : Response × DataFile :=
  let (data, file1) := load file
  let index := toNumber gameIndex
  match (if isNaN index then none else getGame data.games index) with
  | none => (.message 400 "Invalid game index", file1)
  | some (i, game) =>
      match includesWinner winner with
      | none => (.message 400 "Invalid winner", file1)
      | some w =>
          let teams1 :=
            match game.winner with
            | some old =>
                if winnerTruthy (some old) && old != w then
                  addAssign data.teams old (- game.points)
                else data.teams
            | none => data.teams
          let teams2 :=
            if !winnerTruthy game.winner || game.winner != some w then
              addAssign teams1 w game.points
            else teams1
          let games2 := data.games.set i { game with winner := some w }
          (.message 200 "Winner updated successfully",
            save { data with teams := teams2, games := games2 })

/-- The handler `POST /api/update-team-names`. Calling `.trim()` on a value
that is not a string throws, which the handler answers with 500. -/
def updateTeamNames (file : DataFile) (teamAName teamBName : JSValue) :
    Response × DataFile :=
  if !truthy teamAName || !truthy teamBName then
    (.message 400 "Both team names are required", file)
  else
    let (data, file1) := load file
    match teamAName, teamBName with
    | .string a, .string b =>
        (.message 200 "Team names updated successfully",
          save { data with teamNames := { teamA := trim a, teamB := trim b } })
    | _, _ => (.message 500 "Failed to update team names", file1)

/-- The handler `POST /api/reset-scores`. -/
def resetScores (file : DataFile) : Response × DataFile :=
  let (data, _) := load file
  let teams1 := setProp data.teams "Team A" (some 0)
  let teams2 := setProp teams1 "Team B" (some 0)
  let games2 := data.games.map (fun game => { game with winner := none })
  (.message 200 "Scores reset successfully",
    save { data with teams := teams2, games := games2 })

/-- A request to one of the four routes. -/
inductive Request where
  | getScoreboard
  | updateWinner (gameIndex winner : JSValue)
  | updateTeamNames (teamAName teamBName : JSValue)
  | resetScores
deriving DecidableEq, Repr

/-- Dispatch of a request to its handler. -/
def handle (file : DataFile) : Request → Response × DataFile
  | .getScoreboard => getScoreboard file
  | .updateWinner gameIndex winner => updateWinner file gameIndex winner
  | .updateTeamNames teamAName teamBName => updateTeamNames file teamAName teamBName
  | .resetScores => resetScores file

/-- The file after serving a list of requests in order. -/
def serve (file : DataFile) : List Request → DataFile
  | [] => file
  | r :: rs => serve (handle file r).2 rs

/-- Documents reachable from the seed document by the four operations. -/
inductive Reachable : Document → Prop where
  | seed : Reachable initialData
  | step {d d1 : Document} (r : Request) :
      Reachable d → (handle (.json d) r).2 = .json d1 → Reachable d1

/-! ## Notions used to state the properties -/

/-- Sum of the points of the games whose winner is `k`. -/
def pointsWonBy (k : String) (games : List Game) : Int :=
  ((games.filter (fun g => g.winner = some k)).map Game.points).sum

/-- Sum of the points of the games whose winner is not `null`. -/
def awardedPoints (games : List Game) : Int :=
  ((games.filter (fun g => g.winner.isSome)).map Game.points).sum

/-- Every winner is `null`, `'Team A'` or `'Team B'`. -/
def WinnersOK (games : List Game) : Prop :=
  ∀ g ∈ games, g.winner = none ∨ g.winner = some "Team A" ∨ g.winner = some "Team B"

/-- The invariant of reachable documents. -/
def Inv (d : Document) : Prop :=
  d.teams = [("Team A", some (pointsWonBy "Team A" d.games)),
             ("Team B", some (pointsWonBy "Team B" d.games))] ∧
  WinnersOK d.games

/-- The document a successful winner update of game `i` persists, for documents
satisfying the invariant. -/
def afterWinner (d : Document) (i : Nat) (g : Game) (w : String) : Document :=
  let games1 := d.games.set i { g with winner := some w }
  { teamNames := d.teamNames
    teams := [("Team A", some (pointsWonBy "Team A" games1)),
              ("Team B", some (pointsWonBy "Team B" games1))]
    games := games1 }

/-- The integer score stored under key `k`, if the key is present and not `null`. -/
def scoreOf (d : Document) (k : String) : Option Int :=
  (d.teams.lookup k).bind id

/-- The other of the two team identities. -/
def otherTeam (w : String) : String :=
  if w = "Team A" then "Team B" else "Team A"

/-- The keys of the `teams` object. -/
def teamKeys (d : Document) : List String := d.teams.map Prod.fst

/-- A reachable document in which game 0 has been awarded to Team A. -/
def sampleData : Document :=
  { initialData with
    teams := [("Team A", some 10), ("Team B", some 0)]
    games := initialData.games.set 0
      { title := "Vadam Vali", points := 10, winner := some "Team A" } }

/-- The reference behaviour of Rename Teams as the specification words it: a
missing or empty name is refused and nothing changes; two non-empty strings
replace `teamNames` by their trimmed values and leave `teams` and `games` as
they are. `none` where the specification is silent (a name that is present but
not a string). -/
def renameTeamsSpec (d : Document) (teamAName teamBName : JSValue) :
    Option (Response × DataFile) :=
  if teamAName = .undefined ∨ teamAName = .string "" ∨
      teamBName = .undefined ∨ teamBName = .string "" then
    some (.message 400 "Both team names are required", .json d)
  else
    match teamAName, teamBName with
    | .string a, .string b =>
        some (.message 200 "Team names updated successfully",
          .json { teamNames := { teamA := trim a, teamB := trim b }
                  teams := d.teams
                  games := d.games })
    | _, _ => none

/-- The document reached from the seed by renaming the teams to Red and Blue. -/
def renamedData : Document :=
  { initialData with teamNames := { teamA := "Red", teamB := "Blue" } }

/-- The document reached from the seed by swapping the two display names. -/
def swappedData : Document :=
  { initialData with teamNames := { teamA := "Team B", teamB := "Team A" } }

/-! ## Auxiliary lemmas and the properties -/

theorem addAssign_A (a b : Score) (x : Int) (va : Int) (h : a = some va) :
    addAssign [("Team A", a), ("Team B", b)] "Team A" x
      = [("Team A", some (va + x)), ("Team B", b)] := by
  subst h
  simp [addAssign, setProp, getNumber, List.lookup]

theorem addAssign_B (a b : Score) (x : Int) (vb : Int) (h : b = some vb) :
    addAssign [("Team A", a), ("Team B", b)] "Team B" x
      = [("Team A", a), ("Team B", some (vb + x))] := by
  subst h
  simp [addAssign, setProp, getNumber, List.lookup]

theorem pointsWonBy_cons (k : String) (g : Game) (gs : List Game) :
    pointsWonBy k (g :: gs)
      = (if g.winner = some k then g.points else 0) + pointsWonBy k gs := by
  unfold pointsWonBy
  by_cases h : g.winner = some k <;> simp [List.filter_cons, h]

theorem pointsWonBy_set (k : String) (games : List Game) (i : Nat) (g g1 : Game)
    (h : games[i]? = some g) :
    pointsWonBy k (games.set i g1)
      = pointsWonBy k games - (if g.winner = some k then g.points else 0)
          + (if g1.winner = some k then g1.points else 0) := by
  induction games generalizing i with
  | nil => simp at h
  | cons x xs ih =>
    cases i with
    | zero =>
      simp at h
      subst h
      simp only [List.set_cons_zero, pointsWonBy_cons]
      ring
    | succ j =>
      simp at h
      simp only [List.set_cons_succ, pointsWonBy_cons, ih j h]
      ring

theorem includesWinner_some {v : JSValue} {w : String} (h : includesWinner v = some w) :
    v = .string w ∧ (w = "Team A" ∨ w = "Team B") := by
  cases v <;> simp [includesWinner] at h
  rename_i s
  obtain ⟨h1, h2⟩ := h
  subst h2
  exact ⟨rfl, h1⟩

theorem getGame_some {games : List Game} {n : JSNumber} {i : Nat} {g : Game}
    (h : getGame games n = some (i, g)) : arrayIndex n = some i ∧ games[i]? = some g := by
  unfold getGame at h
  cases hn : arrayIndex n with
  | none => simp [hn] at h
  | some j =>
    simp only [hn] at h
    cases hg : games[j]? with
    | none => simp [hg] at h
    | some g0 =>
      simp only [hg, Option.some.injEq, Prod.mk.injEq] at h
      obtain ⟨h1, h2⟩ := h
      subst h1; subst h2
      exact ⟨rfl, hg⟩

theorem updateWinner_of_inv {d : Document} (hd : Inv d) {gi winner : JSValue} {i : Nat}
    {g : Game} {w : String} (hnan : isNaN (toNumber gi) = false)
    (hg : getGame d.games (toNumber gi) = some (i, g))
    (hw : includesWinner winner = some w) :
    updateWinner (.json d) gi winner
      = (.message 200 "Winner updated successfully", .json (afterWinner d i g w)) := by
  obtain ⟨hteams, hwin⟩ := hd
  obtain ⟨_, hw2⟩ := includesWinner_some hw
  obtain ⟨_, hgi⟩ := getGame_some hg
  have hmem : g ∈ d.games := List.getElem?_mem hgi
  have hA := pointsWonBy_set "Team A" d.games i g { g with winner := some w } hgi
  have hB := pointsWonBy_set "Team B" d.games i g { g with winner := some w } hgi
  simp only [updateWinner, load, ensureData, hnan, hg, hw, save, afterWinner, hA, hB]
  rw [hteams]
  generalize pointsWonBy "Team A" d.games = a
  generalize pointsWonBy "Team B" d.games = b
  rcases hw2 with rfl | rfl <;> rcases hwin g hmem with h | h | h <;>
    simp [h, winnerTruthy, addAssign_A _ _ _ _ rfl, addAssign_B _ _ _ _ rfl, sub_eq_add_neg]

theorem pointsWonBy_reset (k : String) (games : List Game) :
    pointsWonBy k (games.map (fun game => { game with winner := none })) = 0 := by
  induction games with
  | nil => rfl
  | cons x xs ih => simp [pointsWonBy_cons, ih]

theorem Inv_initialData : Inv initialData := by
  refine ⟨by decide, ?_⟩
  intro g hg
  simp [initialData] at hg
  rcases hg with h | h | h | h | h | h | h | h | h | h | h | h | h | h | h | h <;>
    subst h <;> exact Or.inl rfl

theorem Inv_afterWinner {d : Document} (hd : Inv d) {i : Nat} {g : Game} {w : String}
    (hw : w = "Team A" ∨ w = "Team B") : Inv (afterWinner d i g w) := by
  refine ⟨rfl, ?_⟩
  intro x hx
  rcases List.mem_or_eq_of_mem_set hx with h | h
  · exact hd.2 x h
  · subst h
    rcases hw with rfl | rfl
    · exact Or.inr (Or.inl rfl)
    · exact Or.inr (Or.inr rfl)

/-- The three outcomes of the winner handler on an existing document. -/
theorem updateWinner_cases (d : Document) (gi winner : JSValue) :
    ((isNaN (toNumber gi) = true ∨ getGame d.games (toNumber gi) = none) ∧
      updateWinner (.json d) gi winner = (.message 400 "Invalid game index", .json d)) ∨
    (∃ i g, isNaN (toNumber gi) = false ∧ getGame d.games (toNumber gi) = some (i, g) ∧
      includesWinner winner = none ∧
      updateWinner (.json d) gi winner = (.message 400 "Invalid winner", .json d)) ∨
    (∃ i g w, isNaN (toNumber gi) = false ∧ getGame d.games (toNumber gi) = some (i, g) ∧
      includesWinner winner = some w ∧
      (updateWinner (.json d) gi winner).1 = .message 200 "Winner updated successfully") := by
  cases hnan : isNaN (toNumber gi) with
  | true => left; simp [updateWinner, load, ensureData, hnan]
  | false =>
    cases hg : getGame d.games (toNumber gi) with
    | none => left; simp [updateWinner, load, ensureData, hnan, hg]
    | some p =>
      obtain ⟨i, g⟩ := p
      right
      cases hw : includesWinner winner with
      | none => left; exact ⟨i, g, rfl, rfl, rfl, by simp [updateWinner, load, ensureData, hnan, hg, hw]⟩
      | some w => right; exact ⟨i, g, w, rfl, rfl, rfl, by simp [updateWinner, load, ensureData, hnan, hg, hw]⟩

theorem Inv_handle {d d1 : Document} (hd : Inv d) (r : Request)
    (h : (handle (.json d) r).2 = .json d1) : Inv d1 := by
  cases r with
  | getScoreboard =>
    simp [handle, getScoreboard, load, ensureData] at h
    subst h; exact hd
  | updateWinner gi winner =>
    simp only [handle] at h
    rcases updateWinner_cases d gi winner with ⟨_, h1⟩ | ⟨i, g, _, _, _, h1⟩ | ⟨i, g, w, hn, hg, hw, _⟩
    · rw [h1] at h; simp at h; subst h; exact hd
    · rw [h1] at h; simp at h; subst h; exact hd
    · rw [updateWinner_of_inv hd hn hg hw] at h
      simp at h; subst h
      exact Inv_afterWinner hd (includesWinner_some hw).2
  | updateTeamNames a b =>
    simp only [handle, updateTeamNames] at h
    split at h
    · simp at h; subst h; exact hd
    · simp only [load, ensureData] at h
      split at h
      · simp [save] at h; subst h; exact hd
      · simp at h; subst h; exact hd
  | resetScores =>
    simp only [handle, resetScores, load, ensureData, save] at h
    simp at h
    subst h
    refine ⟨?_, ?_⟩
    · simp [hd.1, setProp, pointsWonBy_reset]
    · intro g hg
      simp at hg
      obtain ⟨x, _, rfl⟩ := hg
      exact Or.inl rfl

theorem Inv_of_reachable {d : Document} (h : Reachable d) : Inv d := by
  induction h with
  | seed => exact Inv_initialData
  | step r _ hstep ih => exact Inv_handle ih r hstep

theorem reachable_sampleData : Reachable sampleData :=
  .step (.updateWinner (.number (.int 0)) (.string "Team A")) .seed (by decide)

theorem getGame_int {games : List Game} {i : Nat} {g : Game} (h : games[i]? = some g) :
    getGame games (.int i) = some (i, g) := by
  simp [getGame, arrayIndex, h]

/-- C1. Point transfer of Record Winner: on a reachable document, for an
in-range game index `i` and a winner `w` in 'Team A', 'Team B', the request
succeeds; if the game was already won by `w` both scores are unchanged;
otherwise the score of `w` grows by the points of the game, the other team's
score drops by the same amount when it was the previous winner and is unchanged
when there was no winner; afterwards the winner of game `i` is `w`. -/
theorem C1_point_transfer (d : Document) (hd : Reachable d) (gameIndex : JSValue)
    (i : Nat) (g : Game) (w : String)
    (hidx : toNumber gameIndex = .int i) (hi : d.games[i]? = some g)
    (hw : w = "Team A" ∨ w = "Team B") :
    ∃ d1 x y,
      updateWinner (.json d) gameIndex (.string w)
        = (.message 200 "Winner updated successfully", .json d1) ∧
      scoreOf d w = some x ∧ scoreOf d (otherTeam w) = some y ∧
      (g.winner = some w → scoreOf d1 w = some x ∧ scoreOf d1 (otherTeam w) = some y) ∧
      (g.winner ≠ some w →
        scoreOf d1 w = some (x + g.points) ∧
        (g.winner = some (otherTeam w) → scoreOf d1 (otherTeam w) = some (y - g.points)) ∧
        (g.winner = none → scoreOf d1 (otherTeam w) = some y)) ∧
      d1.games = d.games.set i { g with winner := some w } ∧
      (d1.games[i]?).map Game.winner = some (some w) := by
  have hinv := Inv_of_reachable hd
  have hnan : isNaN (toNumber gameIndex) = false := by rw [hidx]; rfl
  have hg : getGame d.games (toNumber gameIndex) = some (i, g) := by
    rw [hidx]; exact getGame_int hi
  have hinc : includesWinner (.string w) = some w := by
    rcases hw with rfl | rfl <;> rfl
  have hlt : i < d.games.length := by
    by_contra hc
    rw [List.getElem?_eq_none (Nat.le_of_not_lt hc)] at hi
    exact Option.noConfusion hi
  have hA := pointsWonBy_set "Team A" d.games i g { g with winner := some w } hi
  have hB := pointsWonBy_set "Team B" d.games i g { g with winner := some w } hi
  refine ⟨afterWinner d i g w, pointsWonBy w d.games, pointsWonBy (otherTeam w) d.games,
    updateWinner_of_inv hinv hnan hg hinc, ?_, ?_, ?_, ?_, rfl, ?_⟩
  · rcases hw with rfl | rfl <;> simp [scoreOf, hinv.1, List.lookup]
  · rcases hw with rfl | rfl <;> simp [scoreOf, hinv.1, List.lookup, otherTeam]
  · intro h
    rcases hw with rfl | rfl <;>
      simp [scoreOf, afterWinner, List.lookup, otherTeam, hA, hB, h]
  · intro h
    have hwin := hinv.2 g (List.getElem?_mem hi)
    rcases hw with rfl | rfl <;> rcases hwin with h1 | h1 | h1 <;>
      simp [scoreOf, afterWinner, List.lookup, otherTeam, hA, hB, h1] at h ⊢
  · simp [afterWinner, List.getElem?_set, hlt]

/-- Witness of C1: game 0 of the sample document moves from Team A to Team B. -/
theorem C1_point_transfer_witness :
    ∃ d1 x y,
      updateWinner (.json sampleData) (.string "0") (.string "Team B")
        = (.message 200 "Winner updated successfully", .json d1) ∧
      scoreOf sampleData "Team B" = some x ∧
      scoreOf sampleData (otherTeam "Team B") = some y ∧
      (some "Team A" = some "Team B" →
        scoreOf d1 "Team B" = some x ∧ scoreOf d1 (otherTeam "Team B") = some y) ∧
      (some "Team A" ≠ some "Team B" →
        scoreOf d1 "Team B" = some (x + 10) ∧
        (some "Team A" = some (otherTeam "Team B") →
          scoreOf d1 (otherTeam "Team B") = some (y - 10)) ∧
        ((some "Team A" : Option String) = none → scoreOf d1 (otherTeam "Team B") = some y)) ∧
      d1.games = sampleData.games.set 0
        { title := "Vadam Vali", points := 10, winner := some "Team B" } ∧
      (d1.games[0]?).map Game.winner = some (some "Team B") :=
  C1_point_transfer sampleData reachable_sampleData (.string "0") 0
    { title := "Vadam Vali", points := 10, winner := some "Team A" } "Team B"
    (by decide) (by decide) (Or.inr rfl)

theorem awardedPoints_cons (g : Game) (gs : List Game) :
    awardedPoints (g :: gs)
      = (if g.winner.isSome then g.points else 0) + awardedPoints gs := by
  unfold awardedPoints
  by_cases h : g.winner.isSome <;> simp [List.filter_cons, h]

theorem awardedPoints_eq {games : List Game} (h : WinnersOK games) :
    pointsWonBy "Team A" games + pointsWonBy "Team B" games = awardedPoints games := by
  induction games with
  | nil => rfl
  | cons x xs ih =>
    have hx := h x (List.mem_cons_self x xs)
    have hxs : WinnersOK xs := fun g hg => h g (List.mem_cons_of_mem x hg)
    rw [pointsWonBy_cons, pointsWonBy_cons, awardedPoints_cons, ← ih hxs]
    rcases hx with h1 | h1 | h1 <;> simp [h1] <;> ring

/-- C2. Score-sum invariant: in every reachable document all scores are
integers and their sum equals the sum of the points of the games whose winner
is not null. -/
theorem C2_score_sum (d : Document) (hd : Reachable d) :
    ∃ vs : List Int, d.teams.map Prod.snd = vs.map some ∧
      vs.sum = awardedPoints d.games := by
  have hinv := Inv_of_reachable hd
  refine ⟨[pointsWonBy "Team A" d.games, pointsWonBy "Team B" d.games], ?_, ?_⟩
  · simp [hinv.1]
  · simp [← awardedPoints_eq hinv.2]

/-- Witness of C2 on the sample document. -/
theorem C2_score_sum_witness :
    Reachable sampleData ∧
    ∃ vs : List Int, sampleData.teams.map Prod.snd = vs.map some ∧
      vs.sum = awardedPoints sampleData.games :=
  ⟨reachable_sampleData, C2_score_sum sampleData reachable_sampleData⟩

/-- C3. Record Winner is idempotent: on a reachable document, with an in-range
index and a valid winner, the first call succeeds and persists a document on
which the same call succeeds again and persists that same document. -/
theorem C3_idempotent (d : Document) (hd : Reachable d) (gameIndex : JSValue)
    (i : Nat) (w : String)
    (hidx : toNumber gameIndex = .int i) (hi : i < d.games.length)
    (hw : w = "Team A" ∨ w = "Team B") :
    ∃ d1,
      updateWinner (.json d) gameIndex (.string w)
        = (.message 200 "Winner updated successfully", .json d1) ∧
      updateWinner (.json d1) gameIndex (.string w)
        = (.message 200 "Winner updated successfully", .json d1) := by
  have hinv := Inv_of_reachable hd
  have hnan : isNaN (toNumber gameIndex) = false := by rw [hidx]; rfl
  have hgi : d.games[i]? = some d.games[i] := List.getElem?_eq_getElem hi
  have hg : getGame d.games (toNumber gameIndex) = some (i, d.games[i]) := by
    rw [hidx]; exact getGame_int hgi
  have hinc : includesWinner (.string w) = some w := by
    rcases hw with rfl | rfl <;> rfl
  refine ⟨afterWinner d i d.games[i] w, updateWinner_of_inv hinv hnan hg hinc, ?_⟩
  have hinv1 : Inv (afterWinner d i d.games[i] w) := Inv_afterWinner hinv hw
  have hgi1 : (afterWinner d i d.games[i] w).games[i]?
      = some { d.games[i] with winner := some w } := by
    simp [afterWinner, List.getElem?_set, hi]
  have hg1 : getGame (afterWinner d i d.games[i] w).games (toNumber gameIndex)
      = some (i, { d.games[i] with winner := some w }) := by
    rw [hidx]; exact getGame_int hgi1
  rw [updateWinner_of_inv hinv1 hnan hg1 hinc]
  simp [afterWinner]

/-- Witness of C3: awarding game 3 of the sample document to Team B twice. -/
theorem C3_idempotent_witness :
    ∃ d1,
      updateWinner (.json sampleData) (.number (.int 3)) (.string "Team B")
        = (.message 200 "Winner updated successfully", .json d1) ∧
      updateWinner (.json d1) (.number (.int 3)) (.string "Team B")
        = (.message 200 "Winner updated successfully", .json d1) :=
  C3_idempotent sampleData reachable_sampleData (.number (.int 3)) 3 "Team B" rfl
    (by decide) (Or.inr rfl)

/-- C4. Reset Scores: on a reachable document the call succeeds; afterwards
every score is 0 and every winner is null, while `teamNames`, the keys of
`teams` and the titles and points of the games, in order, are as before. -/
theorem C4_reset (d : Document) (hd : Reachable d) :
    ∃ d1,
      resetScores (.json d) = (.message 200 "Scores reset successfully", .json d1) ∧
      (∀ kv ∈ d1.teams, kv.2 = some 0) ∧
      (∀ g ∈ d1.games, g.winner = none) ∧
      d1.teamNames = d.teamNames ∧
      teamKeys d1 = teamKeys d ∧
      d1.games.length = d.games.length ∧
      d1.games.map Game.title = d.games.map Game.title ∧
      d1.games.map Game.points = d.games.map Game.points := by
  have hinv := Inv_of_reachable hd
  refine ⟨_, rfl, ?_, ?_, rfl, ?_, ?_, ?_, ?_⟩
  · intro kv hkv
    simp [load, ensureData, hinv.1, setProp] at hkv
    rcases hkv with h | h <;> subst h <;> rfl
  · intro g hg
    simp [load, ensureData] at hg
    obtain ⟨x, _, rfl⟩ := hg
    rfl
  · simp [teamKeys, load, ensureData, hinv.1, setProp]
  · simp [load, ensureData]
  · simp [load, ensureData, Function.comp_def]
  · simp [load, ensureData, Function.comp_def]

/-- Witness of C4 on the sample document. -/
theorem C4_reset_witness :
    Reachable sampleData ∧
    ∃ d1,
      resetScores (.json sampleData)
        = (.message 200 "Scores reset successfully", .json d1) ∧
      (∀ kv ∈ d1.teams, kv.2 = some 0) ∧
      (∀ g ∈ d1.games, g.winner = none) ∧
      d1.teamNames = sampleData.teamNames ∧
      teamKeys d1 = teamKeys sampleData ∧
      d1.games.length = sampleData.games.length ∧
      d1.games.map Game.title = sampleData.games.map Game.title ∧
      d1.games.map Game.points = sampleData.games.map Game.points :=
  ⟨reachable_sampleData, C4_reset sampleData reachable_sampleData⟩

theorem reachable_renamedData : Reachable renamedData :=
  .step (.updateTeamNames (.string "Red") (.string "Blue")) .seed (by decide)

theorem reachable_swappedData : Reachable swappedData :=
  .step (.updateTeamNames (.string "Team B") (.string "Team A")) .seed (by decide)

/-- C5. Out-of-range index rejection: for every document and every integer
index `n` that is negative or at least the number of games, whatever the winner,
the answer is 400 'Invalid game index' and the file is unchanged. -/
theorem C5_out_of_range (d : Document) (n : Int) (winner : JSValue)
    (hn : n < 0 ∨ (d.games.length : Int) ≤ n) :
    updateWinner (.json d) (.number (.int n)) winner
      = (.message 400 "Invalid game index", .json d) := by
  have hg : getGame d.games (.int n) = none := by
    unfold getGame arrayIndex
    rcases hn with h | h
    · simp [Int.not_le.mpr h]
    · have h0 : 0 ≤ n := le_trans (Int.ofNat_nonneg _) h
      have hlen : d.games.length ≤ n.toNat := by omega
      simp [h0, List.getElem?_eq_none hlen]
  simp [updateWinner, load, ensureData, toNumber, isNaN, hg]

/-- Witness of C5: index 16, the number of games of the seed, with a valid
winner. -/
theorem C5_out_of_range_witness :
    ((16 : Int) < 0 ∨ (initialData.games.length : Int) ≤ 16) ∧
    updateWinner (.json initialData) (.number (.int 16)) (.string "Team A")
      = (.message 400 "Invalid game index", .json initialData) :=
  ⟨Or.inr (by decide),
    C5_out_of_range initialData 16 (.string "Team A") (Or.inr (by decide))⟩

/-- C6. Winner validation: on a reachable document and with an in-range index,
the request is answered 400 'Invalid winner' with the file unchanged if and only
if the winner is not a string that is a key of `teams`. -/
theorem C6_invalid_winner (d : Document) (hd : Reachable d) (gameIndex winner : JSValue)
    (i : Nat) (hidx : toNumber gameIndex = .int i) (hi : i < d.games.length) :
    updateWinner (.json d) gameIndex winner
        = (.message 400 "Invalid winner", .json d)
      ↔ ¬ ∃ k ∈ teamKeys d, winner = .string k := by
  have hinv := Inv_of_reachable hd
  have hkeys : teamKeys d = ["Team A", "Team B"] := by simp [teamKeys, hinv.1]
  have hnan : isNaN (toNumber gameIndex) = false := by rw [hidx]; rfl
  have hg : getGame d.games (toNumber gameIndex) = some (i, d.games[i]) := by
    rw [hidx]; exact getGame_int (List.getElem?_eq_getElem hi)
  rw [hkeys]
  cases hw : includesWinner winner with
  | none =>
    have h1 : updateWinner (.json d) gameIndex winner
        = (.message 400 "Invalid winner", .json d) := by
      simp [updateWinner, load, ensureData, hnan, hg, hw]
    refine ⟨fun _ => ?_, fun _ => h1⟩
    rintro ⟨k, hk, rfl⟩
    simp at hk
    rcases hk with rfl | rfl <;> simp [includesWinner] at hw
  | some w =>
    obtain ⟨hwv, hw2⟩ := includesWinner_some hw
    rw [updateWinner_of_inv hinv hnan hg hw]
    constructor
    · intro h
      simp at h
    · intro h
      exact absurd ⟨w, by rcases hw2 with rfl | rfl <;> simp, hwv⟩ h

/-- Witness of C6: after a rename to Red and Blue, the winner 'Red' is refused
for game 2. -/
theorem C6_invalid_winner_witness :
    updateWinner (.json renamedData) (.number (.int 2)) (.string "Red")
        = (.message 400 "Invalid winner", .json renamedData)
      ↔ ¬ ∃ k ∈ teamKeys renamedData, JSValue.string "Red" = .string k :=
  C6_invalid_winner renamedData reachable_renamedData (.number (.int 2)) (.string "Red") 2
    rfl (by decide)

/-- C7. Rename Teams agrees with its reference wherever the reference speaks:
a missing or empty name gives 400 and an unchanged file; two non-empty strings
give 200 and a document whose `teamNames` are the trimmed inputs, with `teams`
and `games` untouched. -/
theorem C7_rename_refines (d : Document) (teamAName teamBName : JSValue)
    (r : Response × DataFile) (h : renameTeamsSpec d teamAName teamBName = some r) :
    updateTeamNames (.json d) teamAName teamBName = r := by
  unfold renameTeamsSpec at h
  split at h
  · rename_i hc
    simp only [Option.some.injEq] at h
    subst h
    rcases hc with rfl | rfl | rfl | rfl <;> simp [updateTeamNames, truthy]
  · rename_i hc
    simp only [not_or] at hc
    obtain ⟨_, ha, _, hb⟩ := hc
    rcases teamAName with _ | _ | _ | _ | s | _ <;>
      rcases teamBName with _ | _ | _ | _ | t | _ <;> simp at h
    have hs : s ≠ "" := fun e => ha (by rw [e])
    have ht : t ≠ "" := fun e => hb (by rw [e])
    subst h
    simp [updateTeamNames, truthy, hs, ht, load, ensureData, save]

/-- Witness of C7: renaming the sample document with padded names. -/
theorem C7_rename_refines_witness :
    renameTeamsSpec sampleData (.string "  Red ") (.string "Blue  ")
      = some (.message 200 "Team names updated successfully",
          .json { sampleData with teamNames := { teamA := "Red", teamB := "Blue" } }) ∧
    updateTeamNames (.json sampleData) (.string "  Red ") (.string "Blue  ")
      = (.message 200 "Team names updated successfully",
          .json { sampleData with teamNames := { teamA := "Red", teamB := "Blue" } }) :=
  ⟨by decide, C7_rename_refines sampleData (.string "  Red ") (.string "Blue  ") _ (by decide)⟩

/-- Counterexample to C8 as stated: after renaming the teams to Red and Blue the
document is reachable, yet the keys of `teams` are not the current display
names. -/
theorem C8_counterexample :
    ¬ ∀ d : Document, Reachable d →
      d.teams.length = 2 ∧
      ∀ k, k ∈ teamKeys d ↔ (k = d.teamNames.teamA ∨ k = d.teamNames.teamB) := by
  intro h
  have h1 := ((h renamedData reachable_renamedData).2 "Red").mpr (Or.inl rfl)
  revert h1
  decide

/-- C8, amended. In every reachable document `teams` has exactly two entries
and its keys are 'Team A' and 'Team B', in that order, whatever `teamNames`
holds. The keys, read in order, are the display names `teamA`, `teamB` if and
only if `teamNames` holds the seed names; read as a set, they are the display
names if and only if the display names are 'Team A' and 'Team B' in either
order. -/
theorem C8_team_keys (d : Document) (hd : Reachable d) :
    d.teams.length = 2 ∧ teamKeys d = ["Team A", "Team B"] ∧
    (teamKeys d = [d.teamNames.teamA, d.teamNames.teamB] ↔
      d.teamNames = initialData.teamNames) ∧
    ((∀ k, k ∈ teamKeys d ↔ (k = d.teamNames.teamA ∨ k = d.teamNames.teamB)) ↔
      ((d.teamNames.teamA = "Team A" ∧ d.teamNames.teamB = "Team B") ∨
       (d.teamNames.teamA = "Team B" ∧ d.teamNames.teamB = "Team A"))) := by
  have hinv := Inv_of_reachable hd
  have hkeys : teamKeys d = ["Team A", "Team B"] := by simp [teamKeys, hinv.1]
  refine ⟨by simp [hinv.1], hkeys, ?_, ?_⟩
  · rw [hkeys]
    constructor
    · intro h
      simp only [List.cons.injEq, and_true] at h
      obtain ⟨ha, hb⟩ := h
      cases hn : d.teamNames with
      | mk x y =>
        rw [hn] at ha hb
        simp only at ha hb
        subst ha; subst hb
        rfl
    · intro hn
      rw [hn]
      rfl
  · rw [hkeys]
    constructor
    · intro h
      have hA : "Team A" = d.teamNames.teamA ∨ "Team A" = d.teamNames.teamB :=
        (h "Team A").mp (by simp)
      have hB : "Team B" = d.teamNames.teamA ∨ "Team B" = d.teamNames.teamB :=
        (h "Team B").mp (by simp)
      rcases hA with ha | ha <;> rcases hB with hb | hb
      · rw [← ha] at hb
        exact absurd hb (by decide)
      · exact Or.inl ⟨ha.symm, hb.symm⟩
      · exact Or.inr ⟨hb.symm, ha.symm⟩
      · rw [← ha] at hb
        exact absurd hb (by decide)
    · intro h k
      rcases h with ⟨ha, hb⟩ | ⟨ha, hb⟩
      · rw [ha, hb]; simp
      · rw [ha, hb]; simp [or_comm]

/-- Witness of C8 amended, on the document with swapped display names: the keys
are still 'Team A', 'Team B'; in order they are not the display names, as a set
they are. -/
theorem C8_team_keys_witness :
    Reachable swappedData ∧
    swappedData.teams.length = 2 ∧ teamKeys swappedData = ["Team A", "Team B"] ∧
    (teamKeys swappedData = [swappedData.teamNames.teamA, swappedData.teamNames.teamB] ↔
      swappedData.teamNames = initialData.teamNames) ∧
    ((∀ k, k ∈ teamKeys swappedData ↔
        (k = swappedData.teamNames.teamA ∨ k = swappedData.teamNames.teamB)) ↔
      ((swappedData.teamNames.teamA = "Team A" ∧ swappedData.teamNames.teamB = "Team B") ∨
       (swappedData.teamNames.teamA = "Team B" ∧ swappedData.teamNames.teamB = "Team A"))) :=
  ⟨reachable_swappedData, C8_team_keys swappedData reachable_swappedData⟩

/-- Serving a request on an existing document leaves a document on disk. -/
theorem handle_json (d : Document) (r : Request) :
    ∃ d1, (handle (.json d) r).2 = .json d1 := by
  cases r with
  | getScoreboard => exact ⟨d, rfl⟩
  | updateWinner gi winner =>
    simp only [handle, updateWinner, load, ensureData, save]
    split
    · exact ⟨d, rfl⟩
    · split
      · exact ⟨d, rfl⟩
      · exact ⟨_, rfl⟩
  | updateTeamNames a b =>
    simp only [handle, updateTeamNames, load, ensureData, save]
    split
    · exact ⟨d, rfl⟩
    · split
      · exact ⟨_, rfl⟩
      · exact ⟨d, rfl⟩
  | resetScores => exact ⟨_, rfl⟩

/-- The reachable documents are exactly what request sequences served from the
seed leave on disk. -/
theorem reachable_iff_serve (d : Document) :
    Reachable d ↔ ∃ rs, serve (.json initialData) rs = .json d := by
  have hfwd : ∀ rs (d0 d1 : Document), Reachable d0 → serve (.json d0) rs = .json d1 →
      Reachable d1 := by
    intro rs
    induction rs with
    | nil =>
      intro d0 d1 h0 h
      simp [serve] at h
      subst h; exact h0
    | cons r rs ih =>
      intro d0 d1 h0 h
      obtain ⟨d2, h2⟩ := handle_json d0 r
      simp only [serve, h2] at h
      exact ih d2 d1 (.step r h0 h2) h
  have hsnoc : ∀ rs (f : DataFile) (r : Request),
      serve f (rs ++ [r]) = (handle (serve f rs) r).2 := by
    intro rs
    induction rs with
    | nil => intro f r; rfl
    | cons x xs ih => intro f r; simp [serve, ih]
  constructor
  · intro h
    induction h with
    | seed => exact ⟨[], rfl⟩
    | step r _ hstep ih =>
      obtain ⟨rs, hrs⟩ := ih
      exact ⟨rs ++ [r], by rw [hsnoc, hrs, hstep]⟩
  · rintro ⟨rs, h⟩
    exact hfwd rs _ _ .seed h

/-- What the index check does refuse: a `gameIndex` whose `Number` conversion is
`NaN` or does not address a game, whatever the winner. -/
theorem updateWinner_invalid_index (d : Document) (gameIndex winner : JSValue)
    (h : isNaN (toNumber gameIndex) = true ∨ getGame d.games (toNumber gameIndex) = none) :
    updateWinner (.json d) gameIndex winner
      = (.message 400 "Invalid game index", .json d) := by
  rcases h with h | h
  · simp [updateWinner, load, ensureData, h]
  · simp [updateWinner, load, ensureData, h]

/-- A missing `gameIndex` and non-numeric text are refused. -/
theorem updateWinner_missing_index (d : Document) (winner : JSValue) :
    updateWinner (.json d) .undefined winner
        = (.message 400 "Invalid game index", .json d) ∧
    updateWinner (.json d) (.string "abc") winner
        = (.message 400 "Invalid game index", .json d) :=
  ⟨updateWinner_invalid_index d _ _ (Or.inl rfl),
   updateWinner_invalid_index d _ _ (Or.inl (by decide))⟩

/-- C9 at its failing inputs: a `gameIndex` that is `null` or the empty string
is converted to 0 and, with a valid winner, awards game 0 (the seed becomes the
sample document); `true` is converted to 1 and is accepted as well. -/
theorem C9_non_integer_index_accepted :
    updateWinner (.json initialData) .null (.string "Team A")
        = (.message 200 "Winner updated successfully", .json sampleData) ∧
    updateWinner (.json initialData) (.string "") (.string "Team A")
        = (.message 200 "Winner updated successfully", .json sampleData) ∧
    (updateWinner (.json initialData) (.bool true) (.string "Team A")).1
        = .message 200 "Winner updated successfully" := by
  decide

/-- C10 at its failing input: a name made of one space passes the emptiness
check, is trimmed afterwards, and the empty string is stored as `teamA`. -/
theorem C10_blank_name_stored :
    updateTeamNames (.json initialData) (.string " ") (.string "Team B")
      = (.message 200 "Team names updated successfully",
          .json { initialData with teamNames := { teamA := "", teamB := "Team B" } }) := by
  decide

end Scoreboard
